import Mathlib

/-!
Shallow embedding of the Monopoly game engine (sources/managers.cc, sources/spaces.cc,
sources/player.cc, gamecore.cc) and theorems settling the specification claims.

Machine integers of the C++ source (int) are modelled as Lean Int; the C++
conversion from int to size_t (unsigned 64 bit) that happens in the modulo
expression of BoardManager::movePlayer is made explicit as a reduction modulo 2^64.
Interactive prompts (getNumber, getYesNo, getString) always return a value of the
requested shape, re-prompting until they do; they are modelled as oracle inputs,
with getNumber results forced into the requested range.
-/

namespace MonopolyModel

/-! ## Player (player.h lines 113-122, player.cc) -/

/-- Player state: the fields of the Player class with their in-class initialisers
(player.h lines 115-122). -/
structure Player where
  name : String
  money : Int := 1500
  position : Int := 0
  nbStationsOwned : Int := 0
  nbUtilitiesOwned : Int := 0
  remainingTurnsInJail : Int := 0
  hasChanceGOJFC : Bool := false
  hasCommunityChestGOJFC : Bool := false
deriving Repr, DecidableEq

/-- Player::Player(std::string _name) (player.cc lines 14-16): only the name is set,
every other field keeps its in-class initialiser. -/
def mkPlayer (name : String) : Player := { name := name }

/-! ## PlayerManager::transferMoneyFromTo (managers.cc lines 101-119) -/

/-- Debit side of PlayerManager::transferMoneyFromTo: the sender's money is reduced by
amount; if the result is negative it is clamped to 0 (the bank absorbs the shortfall,
managers.cc lines 105-112). -/
def debitWithBankRescue (money amount : Int) : Int :=
  let m := money - amount
  if m < 0 then 0 else m

/-- PlayerManager::transferMoneyFromTo (managers.cc lines 101-119) acting on the money of
the two optional endpoints (none models the nullptr bank sentinel): the sender, when
present, is debited with clamping at zero; the recipient, when present, is credited the
full amount. -/
def transferMoneyFromTo (fromMoney toMoney : Option Int) (amount : Int) :
    Option Int × Option Int :=
  (fromMoney.map fun m => debitWithBankRescue m amount,
   toMoney.map fun m => m + amount)

/-! ## BoardManager::movePlayer (managers.cc lines 232-256) -/

/-- C++ integral conversion from a signed value to size_t (unsigned 64 bit): value
modulo 2^64.  It arises in movePlayer because board.size() is a size_t, so the int
sum position + distanceToGo is converted before the percent operation. -/
def toSizeT (x : Int) : Nat := (x % (2 ^ 64 : Int)).toNat

/-- Result of the body of BoardManager::movePlayer before the final handleSpace call:
the stored new position, the pass-Go credit transferred from the bank, and whether the
defensive out-of-bounds branch (managers.cc lines 243-246) aborted the move. -/
structure MoveOutcome where
  newPosition : Int
  goCredit : Int
  aborted : Bool
deriving Repr, DecidableEq

/-- The expression int newPosition = (position + distanceToGo) % board.size() of
managers.cc line 240: the int sum is converted to size_t, reduced modulo the board
length, and the (always representable) result stored back in an int. -/
def newPositionOf (boardLen : Nat) (position distanceToGo : Int) : Int :=
  ((toSizeT (position + distanceToGo)) % boardLen : Nat)

/-- BoardManager::movePlayer (managers.cc lines 232-256) up to, but not including, the
final handleSpace call.  If the defensive bounds check fires the move is aborted
(position unchanged, no credit).  The pass-Go credit of 200 is granted iff the new
position is numerically smaller than the old one, the player has no remaining turns in
jail, and distanceToGo is positive (managers.cc line 248). -/
def movePlayerCore (boardLen : Nat) (position remainingTurnsInJail distanceToGo : Int) :
    MoveOutcome :=
  if newPositionOf boardLen position distanceToGo < 0
      ∨ (boardLen : Int) ≤ newPositionOf boardLen position distanceToGo then
    { newPosition := position, goCredit := 0, aborted := true }
  else
    { newPosition := newPositionOf boardLen position distanceToGo
      goCredit :=
        if newPositionOf boardLen position distanceToGo < position
            ∧ remainingTurnsInJail = 0 ∧ 0 < distanceToGo then 200
        else 0
      aborted := false }

/-! ## Space actions relevant to movement (spaces.cc) and handleSpace dispatch -/

/-- Tags for the space behaviours needed by the movement claims.  Go::action
(spaces.cc lines 632-638) credits 200 from the bank; FreeParking::action
(spaces.cc lines 612-616) does nothing; Tax::action (spaces.cc lines 483-489)
transfers the fixed amount to the bank; other is a stand-in for the remaining
variants whose actions are not exercised by these claims. -/
inductive SpaceTag where
  | go
  | freeParking
  | taxSpace (amount : Int)
  | other
deriving Repr, DecidableEq

/-- Money and position state of the current player as seen by movePlayer. -/
structure PlayerPos where
  position : Int
  money : Int
  remainingTurnsInJail : Int
deriving Repr, DecidableEq

/-- Action dispatch for the modelled space variants: Go credits 200 via
transferMoneyFromTo(nullptr, player, 200); FreeParking does nothing; Tax debits the
amount via transferMoneyFromTo(player, nullptr, amount). -/
def spaceAction : SpaceTag → PlayerPos → PlayerPos
  | SpaceTag.go, s => { s with money := s.money + 200 }
  | SpaceTag.freeParking, s => s
  | SpaceTag.taxSpace a, s => { s with money := debitWithBankRescue s.money a }
  | SpaceTag.other, s => s

/-- BoardManager::handleSpace (managers.cc lines 320-327): run the action of the space
at the current player's position. -/
def handleSpace (board : List SpaceTag) (s : PlayerPos) : PlayerPos :=
  spaceAction (board.getD s.position.toNat SpaceTag.other) s

/-- BoardManager::movePlayer in full (managers.cc lines 232-256): the core computation
followed by the handleSpace dispatch when the move was not aborted. -/
def movePlayer (board : List SpaceTag) (distanceToGo : Int) (s : PlayerPos) : PlayerPos :=
  let r := movePlayerCore board.length s.position s.remainingTurnsInJail distanceToGo
  if r.aborted then s
  else handleSpace board { s with position := r.newPosition, money := s.money + r.goCredit }

/-! ## Card decks and the draw operations (managers.cc lines 145-192) -/

/-- A card as the draw logic sees it: its description string (cards.h).  The effect
closure is opaque configuration; the draw operations only decide whether to run it. -/
structure GameCard where
  description : String
deriving Repr, DecidableEq

/-- Model of the case-sensitive substring search
description.find(needle) != std::string::npos used at managers.cc lines 156 and 181. -/
def strContainsSub (hay needle : String) : Bool :=
  hay.toList.tails.any fun t => needle.toList.isPrefixOf t

/-- Outcome of one attempt of a draw operation: the deck was empty (logged error, draw
skipped), the attempt re-draws, or the top card's effect is invoked. -/
inductive DrawResult where
  | emptyDeck
  | redraw
  | invoke (c : GameCard)
deriving Repr, DecidableEq

/-- BoardManager::drawChanceCard (managers.cc lines 145-162) for a given post-shuffle
deck order: empty deck is an error; if the top card's description contains
"Get Out of Jail Free" and chanceGOJFCTaken holds, re-draw; otherwise invoke the top
card's effect. -/
def drawChanceCardStep (chanceDeck : List GameCard) (chanceGOJFCTaken : Bool) :
    DrawResult :=
  match chanceDeck with
  | [] => DrawResult.emptyDeck
  | card :: _ =>
    if strContainsSub card.description "Get Out of Jail Free" && chanceGOJFCTaken then
      DrawResult.redraw
    else DrawResult.invoke card

/-- BoardManager::drawCommunityChestCard (managers.cc lines 170-187) for a given
post-shuffle deck order.  The guard at line 181 tests chanceGOJFCTaken (not
communityChestGOJFCTaken), exactly as in the source. -/
def drawCommunityChestCardStep (communityChestDeck : List GameCard)
    (chanceGOJFCTaken communityChestGOJFCTaken : Bool) : DrawResult :=
  match communityChestDeck with
  | [] => DrawResult.emptyDeck
  | card :: _ =>
    if strContainsSub card.description "Get Out of Jail Free" && chanceGOJFCTaken then
      DrawResult.redraw
    else DrawResult.invoke card

/-- The get-out-of-jail-free card of the community chest deck, with its description
exactly as constructed in the card data (gamedata, communityChestCards entry). -/
def communityChestGOJFCCard : GameCard :=
  { description := "Get out of Jail Free. This card may be kept until needed" }

/-- The get-out-of-jail-free card of the chance deck, with its description exactly as
constructed in the card data (gamedata, chanceCards entry). -/
def chanceGOJFCCard : GameCard :=
  { description := "Get out of Jail Free. This card may be kept until needed" }

/-! ## Interactive number prompts -/

/-- Result of getNumber(message, min, max) (iomanager.cc): the prompt repeats until the
entered number lies in the requested range, so the value the engine receives is the
oracle input forced into that range. -/
def getNumberRanged (input lo hi : Int) : Int :=
  if input < lo then lo else if hi < input then hi else input

/-! ## BoardManager::buildOnProperties (managers.cc lines 267-318) -/

/-- Outcome of one attempt of buildOnProperties: the attempt limit was exceeded, the
requested levels differ by more than one so the whole request is retried, the total
spend exceeds the player's money, or the new levels are committed and the player
debited. -/
inductive BuildOutcome where
  | tooManyAttempts
  | retryInconsistent
  | notEnoughMoney
  | commit (levels : List Int) (moneyAfter : Int)
deriving Repr, DecidableEq

/-- One attempt of BoardManager::buildOnProperties (managers.cc lines 276-317) over a
color group given per-property current levels and the oracle's requested additional
buildings.  Each request is forced by getNumber into [0, min(5 - current,
money / housePrice)] (line 285-286; C++ int division truncates, here operands are
nonnegative in every use).  If the resulting levels differ by more than 1 the attempt
is rejected for retry (lines 301-304); if the total spend exceeds the player's money
the request is dropped (lines 306-308); otherwise the player pays and the levels are
committed (lines 310-317). -/
def buildOnPropertiesStep (currentLevels requestedInputs : List Int)
    (housePrice money : Int) : BuildOutcome :=
  let adds := List.zipWith
    (fun cur req => getNumberRanged req 0 (min (5 - cur) (money.tdiv housePrice)))
    currentLevels requestedInputs
  let totals := List.zipWith (fun cur add => cur + add) currentLevels adds
  let totalNewBuildings := adds.sum
  let minBuildings := totals.foldl min (2 ^ 31 - 1)
  let maxBuildings := totals.foldl max (-(2 ^ 31))
  if 1 < maxBuildings - minBuildings then BuildOutcome.retryInconsistent
  else if money < totalNewBuildings * housePrice then BuildOutcome.notEnoughMoney
  else BuildOutcome.commit totals (money - totalNewBuildings * housePrice)

/-- BoardManager::buildOnProperties with its retry recursion (managers.cc lines
267-318): attempts above 50 abort (lines 270-274); an inconsistent attempt recurses
with attempts + 1 on the next oracle request vector; running out of oracle input stops
the model. -/
def buildOnProperties (currentLevels : List Int) (requests : List (List Int))
    (housePrice money : Int) (attempts : Nat) : BuildOutcome :=
  if 50 < attempts then BuildOutcome.tooManyAttempts
  else
    match requests with
    | [] => BuildOutcome.tooManyAttempts
    | req :: rest =>
      match buildOnPropertiesStep currentLevels req housePrice money with
      | BuildOutcome.retryInconsistent =>
        buildOnProperties currentLevels rest housePrice money (attempts + 1)
      | r => r

/-! ## End-of-turn bankruptcy scan (gamecore.cc, GameCore::playTurn lines 207-231) -/

/-- Player as seen by the bankruptcy scan: a stable identity and a money balance. -/
structure ScanPlayer where
  id : Nat
  money : Int
deriving Repr, DecidableEq

/-- A buyable space as seen by the bankruptcy cleanup: its owner (none is bank-owned),
whether it is a Property, and its building level (PropertyRent as its int value,
BASE_RENT being 6). -/
structure ScanSpace where
  owner : Option Nat
  isProperty : Bool
  nbBuildings : Int
deriving Repr, DecidableEq

/-- Release loop run when a player goes bankrupt (gamecore.cc lines 215-228): every
space owned by the player loses its owner, and a Property is additionally reset to
BASE_RENT (= 6). -/
def releaseSpacesOf (pid : Nat) (board : List ScanSpace) : List ScanSpace :=
  board.map fun sp =>
    if sp.owner = some pid then
      { owner := none
        isProperty := sp.isProperty
        nbBuildings := if sp.isProperty then 6 else sp.nbBuildings }
    else sp

/-- Body of the bankruptcy scan (gamecore.cc lines 208-231): a for loop on index i over
the live player list; a player with exactly 0 money has their spaces released and is
removed in place (PlayerManager::removePlayer erases the matching element), after which
the loop still increments i.  The fuel argument is the initial list length, an upper
bound on the number of iterations since i grows by one per iteration and the list never
grows. -/
def bankruptcyScanGo :
    Nat → Nat → List ScanPlayer → List ScanSpace → List ScanPlayer × List ScanSpace
  | 0, _, players, board => (players, board)
  | fuel + 1, i, players, board =>
    if h : i < players.length then
      let p := players.get ⟨i, h⟩
      if p.money = 0 then
        bankruptcyScanGo fuel (i + 1) (players.eraseIdx i) (releaseSpacesOf p.id board)
      else
        bankruptcyScanGo fuel (i + 1) players board
    else (players, board)

/-- The bankruptcy scan over the whole player list (gamecore.cc lines 208-231). -/
def bankruptcyScan (players : List ScanPlayer) (board : List ScanSpace) :
    List ScanPlayer × List ScanSpace :=
  bankruptcyScanGo players.length 0 players board

/-! ## Property::auction (spaces.cc lines 147-189) -/

/-- A candidate in the auction: identity and money (money is not modified while the
bidding loop runs; the winner pays only after the loop). -/
structure Bidder where
  id : Nat
  money : Int
deriving Repr, DecidableEq

/-- The bidding loop of Property::auction (spaces.cc lines 158-183).  The oracle list
holds one (wantsToBid, amount) pair per bid/pass prompt, consumed in order; an
exhausted oracle answers pass.  Front candidate with money - 1 <= bid is eliminated
without a prompt; a bidder names getNumber(bid + 1, money - 1) and is re-appended; a
passer is eliminated.  The loop stops when one candidate remains, returning it with the
final bid.  Each step consumes either one oracle entry or one queue element, so
moves.length + queue.length bounds the number of iterations. -/
def auctionLoop :
    Nat → List Bidder → Int → List (Bool × Int) → Option (Bidder × Int)
  | _, [], _, _ => none
  | _, [winner], bid, _ => some (winner, bid)
  | 0, _ :: _ :: _, _, _ => none
  | fuel + 1, p :: q :: rest, bid, moves =>
    if p.money - 1 ≤ bid then
      auctionLoop fuel (q :: rest) bid moves
    else
      match moves with
      | [] => auctionLoop fuel (q :: rest) bid []
      | (wantsToBid, amount) :: movesRest =>
        if wantsToBid then
          auctionLoop fuel ((q :: rest) ++ [p])
            (getNumberRanged amount (bid + 1) (p.money - 1)) movesRest
        else
          auctionLoop fuel (q :: rest) bid movesRest

/-- Property::auction bidding loop started on the full candidate list with bid 0
(spaces.cc lines 151-156), with fuel covering every possible iteration. -/
def auction (players : List Bidder) (moves : List (Bool × Int)) :
    Option (Bidder × Int) :=
  auctionLoop (moves.length + players.length) players 0 moves

/-- Effects applied to the auction winner after the loop (spaces.cc lines 184-188):
transferMoneyFromTo(winner, nullptr, bid) and affectOwnership(winner, space). -/
structure AuctionOutcome where
  winnerId : Nat
  winnerMoneyBefore : Int
  finalBid : Int
  winnerMoneyAfter : Int
  newOwner : Option Nat
deriving Repr, DecidableEq

/-- Property::auction in full: run the bidding loop, then make the winner pay the final
bid to the bank and become the owner of the space. -/
def auctionSettle (players : List Bidder) (moves : List (Bool × Int)) :
    Option AuctionOutcome :=
  (auction players moves).map fun wb =>
    { winnerId := wb.1.id
      winnerMoneyBefore := wb.1.money
      finalBid := wb.2
      winnerMoneyAfter := debitWithBankRescue wb.1.money wb.2
      newOwner := some wb.1.id }

/-! ## Jail::action (spaces.cc lines 507-574) -/

/-- State touched by Jail::action: the current player's jail counter, money and
get-out-of-jail-free tokens, plus the two per-deck taken flags of the BoardManager. -/
structure JailState where
  remainingTurnsInJail : Int
  money : Int
  hasChanceGOJFC : Bool
  hasCommunityChestGOJFC : Bool
  chanceGOJFCTaken : Bool
  communityChestGOJFCTaken : Bool
deriving Repr, DecidableEq

/-- Jail::action (spaces.cc lines 507-574) with the prompt answers and the dice roll
passed in as oracle inputs.  With remaining turns > 0: if the player holds a card and
accepts using one, the sentence is cleared and the chance card is consumed when held,
otherwise the community chest card (lines 514-534); else if the player accepts paying
the fine, 50 is paid and the sentence cleared when affordable, while an unaffordable
acceptance falls through to the decrement (lines 536-551); else a rolled double clears
the sentence and otherwise the counter decrements (lines 553-568).  With remaining
turns = 0 the action does nothing. -/
def jailAction (s : JailState) (useCardAnswer payFineAnswer : Bool)
    (dice1 dice2 : Int) : JailState :=
  if 0 < s.remainingTurnsInJail then
    if (s.hasChanceGOJFC || s.hasCommunityChestGOJFC) && useCardAnswer then
      if s.hasChanceGOJFC then
        { s with remainingTurnsInJail := 0, hasChanceGOJFC := false,
                 chanceGOJFCTaken := false }
      else
        { s with remainingTurnsInJail := 0, hasCommunityChestGOJFC := false,
                 communityChestGOJFCTaken := false }
    else if payFineAnswer then
      if s.money < 50 then
        { s with remainingTurnsInJail := s.remainingTurnsInJail - 1 }
      else
        { s with money := debitWithBankRescue s.money 50, remainingTurnsInJail := 0 }
    else if dice1 = dice2 then
      { s with remainingTurnsInJail := 0 }
    else
      { s with remainingTurnsInJail := s.remainingTurnsInJail - 1 }
  else s

/-! ## Helper lemmas about movePlayer -/

lemma newPositionOf_nonneg (boardLen : Nat) (position distanceToGo : Int) :
    0 ≤ newPositionOf boardLen position distanceToGo :=
  Int.natCast_nonneg _

lemma newPositionOf_lt (boardLen : Nat) (position distanceToGo : Int)
    (hL : 0 < boardLen) :
    newPositionOf boardLen position distanceToGo < (boardLen : Int) := by
  have h := Nat.mod_lt (toSizeT (position + distanceToGo)) hL
  unfold newPositionOf
  exact_mod_cast h

lemma newPositionOf_eq_emod (boardLen : Nat) (position distanceToGo : Int)
    (h0 : 0 ≤ position + distanceToGo) (h1 : position + distanceToGo < 2 ^ 64) :
    newPositionOf boardLen position distanceToGo
      = (position + distanceToGo) % (boardLen : Int) := by
  unfold newPositionOf toSizeT
  rw [Int.emod_eq_of_lt h0 h1, Int.natCast_mod, Int.toNat_of_nonneg h0]

lemma movePlayerCore_eq (boardLen : Nat) (position remainingTurnsInJail distanceToGo : Int)
    (hL : 0 < boardLen) :
    movePlayerCore boardLen position remainingTurnsInJail distanceToGo =
      { newPosition := newPositionOf boardLen position distanceToGo
        goCredit :=
          if newPositionOf boardLen position distanceToGo < position
              ∧ remainingTurnsInJail = 0 ∧ 0 < distanceToGo then 200
          else 0
        aborted := false } := by
  unfold movePlayerCore
  rw [if_neg]
  push_neg
  exact ⟨newPositionOf_nonneg _ _ _, newPositionOf_lt _ _ _ hL⟩

lemma movePlayerCore_newPosition (boardLen : Nat) (position jail d : Int)
    (hL : 0 < boardLen) :
    (movePlayerCore boardLen position jail d).newPosition
      = newPositionOf boardLen position d := by
  rw [movePlayerCore_eq boardLen position jail d hL]

lemma movePlayerCore_aborted (boardLen : Nat) (position jail d : Int)
    (hL : 0 < boardLen) :
    (movePlayerCore boardLen position jail d).aborted = false := by
  rw [movePlayerCore_eq boardLen position jail d hL]

lemma movePlayerCore_goCredit (boardLen : Nat) (position jail d : Int)
    (hL : 0 < boardLen) :
    (movePlayerCore boardLen position jail d).goCredit
      = if newPositionOf boardLen position d < position ∧ jail = 0 ∧ 0 < d then 200
        else 0 := by
  rw [movePlayerCore_eq boardLen position jail d hL]

/-! ## Claim theorems -/

/-- C9: a newly constructed Player starts with exactly 1500 money, position 0, zero
stations and utilities owned, zero remaining turns in jail, and neither
get-out-of-jail-free token (player.h lines 115-122, player.cc lines 14-16). -/
theorem player_ctor_defaults (name : String) :
    (mkPlayer name).money = 1500
    ∧ (mkPlayer name).position = 0
    ∧ (mkPlayer name).nbStationsOwned = 0
    ∧ (mkPlayer name).nbUtilitiesOwned = 0
    ∧ (mkPlayer name).remainingTurnsInJail = 0
    ∧ (mkPlayer name).hasChanceGOJFC = false
    ∧ (mkPlayer name).hasCommunityChestGOJFC = false :=
  ⟨rfl, rfl, rfl, rfl, rfl, rfl, rfl⟩

/-- C6: transferring an amount larger than the sender's nonnegative balance completes,
leaves the sender at exactly 0, and still credits a player recipient the full amount;
a bank sender (none) simply credits the recipient (managers.cc lines 101-119). -/
theorem transfer_overdraft_clamps_to_zero :
    (∀ m t a : Int, 0 ≤ m → m < a →
      transferMoneyFromTo (some m) (some t) a = (some 0, some (t + a)))
    ∧ (∀ m a : Int, 0 ≤ m → m < a →
      transferMoneyFromTo (some m) none a = (some 0, none))
    ∧ (∀ t a : Int, transferMoneyFromTo none (some t) a = (none, some (t + a))) := by
  refine ⟨fun m t a h0 h1 => ?_, fun m a h0 h1 => ?_, fun t a => rfl⟩
  · simp [transferMoneyFromTo, debitWithBankRescue]
    omega
  · simp [transferMoneyFromTo, debitWithBankRescue]
    omega

/-- Witness for C6 at m = 30, t = 10, a = 100. -/
theorem transfer_overdraft_clamps_to_zero_witness :
    transferMoneyFromTo (some 30) (some 10) 100 = (some 0, some 110) :=
  transfer_overdraft_clamps_to_zero.1 30 10 100 (by decide) (by decide)

/-- C2: for a positive move on a board of length L from a position in range, movePlayer
stores (position + d) mod L as the new position, credits exactly 200 from the bank iff
the new position is numerically below the old one and the player has 0 remaining jail
turns, and a negative move never credits the pass-Go bonus (managers.cc lines 240-251). -/
theorem movePlayer_position_and_go_credit (L : Nat) (pos jail d : Int)
    (hL : 0 < L) (hLw : (L : Int) ≤ 2 ^ 31)
    (hpos0 : 0 ≤ pos) (hposL : pos < (L : Int))
    (hd : 0 < d) (hdw : d ≤ 2 ^ 31) :
    (movePlayerCore L pos jail d).newPosition = (pos + d) % (L : Int)
    ∧ (movePlayerCore L pos jail d).aborted = false
    ∧ ((movePlayerCore L pos jail d).goCredit = 200
        ↔ ((pos + d) % (L : Int) < pos ∧ jail = 0))
    ∧ (∀ d' : Int, d' < 0 → (movePlayerCore L pos jail d').goCredit = 0) := by
  have hsum0 : 0 ≤ pos + d := by omega
  have hsum1 : pos + d < 2 ^ 64 := by omega
  have he := newPositionOf_eq_emod L pos d hsum0 hsum1
  refine ⟨?_, movePlayerCore_aborted L pos jail d hL, ?_, ?_⟩
  · rw [movePlayerCore_newPosition L pos jail d hL, he]
  · rw [movePlayerCore_goCredit L pos jail d hL, he]
    by_cases hc : (pos + d) % (L : Int) < pos ∧ jail = 0
    · rw [if_pos ⟨hc.1, hc.2, hd⟩]
      simp [hc]
    · rw [if_neg (by tauto)]
      constructor
      · intro h; exact absurd h (by decide)
      · intro h; exact absurd h hc
  · intro d' hd'
    rw [movePlayerCore_goCredit L pos jail d' hL, if_neg (by intro h; omega)]

/-- Witness for C2 at L = 40, pos = 39, jail = 0, d = 3 (wrap: new position 2). -/
theorem movePlayer_position_and_go_credit_witness :
    (movePlayerCore 40 39 0 3).newPosition = (39 + 3) % (40 : Int)
    ∧ (movePlayerCore 40 39 0 3).aborted = false
    ∧ ((movePlayerCore 40 39 0 3).goCredit = 200
        ↔ ((39 + 3) % (40 : Int) < 39 ∧ (0 : Int) = 0))
    ∧ (∀ d' : Int, d' < 0 → (movePlayerCore 40 39 0 d').goCredit = 0) :=
  movePlayer_position_and_go_credit 40 39 0 3 (by decide) (by decide) (by decide)
    (by decide) (by decide) (by decide)

/-- C3: for every delta (of either sign) and starting position in range, the new
position computed by movePlayer lies in [0, boardLength), so the defensive
out-of-bounds branch of managers.cc lines 243-246 is never taken.  The size_t
conversion in the percent expression makes the computed value nonnegative even for
negative sums. -/
theorem movePlayer_defensive_branch_unreachable (L : Nat) (pos jail delta : Int)
    (hL : 0 < L) (_hpos0 : 0 ≤ pos) (_hposL : pos < (L : Int)) :
    0 ≤ (movePlayerCore L pos jail delta).newPosition
    ∧ (movePlayerCore L pos jail delta).newPosition < (L : Int)
    ∧ (movePlayerCore L pos jail delta).aborted = false := by
  refine ⟨?_, ?_, movePlayerCore_aborted L pos jail delta hL⟩
  · rw [movePlayerCore_newPosition L pos jail delta hL]
    exact newPositionOf_nonneg _ _ _
  · rw [movePlayerCore_newPosition L pos jail delta hL]
    exact newPositionOf_lt _ _ _ hL

/-- Witness for C3 at L = 40, pos = 1, jail = 0, delta = -3 (the move-back-three card). -/
theorem movePlayer_defensive_branch_unreachable_witness :
    0 ≤ (movePlayerCore 40 1 0 (-3)).newPosition
    ∧ (movePlayerCore 40 1 0 (-3)).newPosition < (40 : Int)
    ∧ (movePlayerCore 40 1 0 (-3)).aborted = false :=
  movePlayer_defensive_branch_unreachable 40 1 0 (-3) (by decide) (by decide) (by decide)

/-- C8: a player not in jail who wraps and lands exactly on the Go space at index 0
nets exactly 400 for the move: 200 as pass-Go credit inside movePlayer (managers.cc
lines 247-251) plus 200 from Go::action (spaces.cc lines 632-638). -/
theorem land_on_go_nets_400 (board : List SpaceTag) (s : PlayerPos) (d : Int)
    (hgo : board.head? = some SpaceTag.go)
    (hLw : (board.length : Int) ≤ 2 ^ 31)
    (hpos0 : 0 < s.position) (hposL : s.position < (board.length : Int))
    (hjail : s.remainingTurnsInJail = 0) (hd : 0 < d) (hdw : d ≤ 2 ^ 31)
    (hwrap : (s.position + d) % (board.length : Int) = 0) :
    (movePlayer board d s).money = s.money + 400
    ∧ (movePlayer board d s).position = 0 := by
  have hL : 0 < board.length := by
    cases board with
    | nil => simp at hgo
    | cons a t => simp
  have hsum0 : 0 ≤ s.position + d := by omega
  have hsum1 : s.position + d < 2 ^ 64 := by omega
  have hnp : newPositionOf board.length s.position d = 0 := by
    rw [newPositionOf_eq_emod board.length s.position d hsum0 hsum1, hwrap]
  have hget : board[0]? = some SpaceTag.go := by
    cases board with
    | nil => simp at hgo
    | cons a t =>
      simp only [List.head?_cons, Option.some.injEq] at hgo
      simp [hgo]
  simp only [movePlayer]
  rw [movePlayerCore_aborted board.length s.position s.remainingTurnsInJail d hL]
  rw [movePlayerCore_goCredit board.length s.position s.remainingTurnsInJail d hL]
  rw [movePlayerCore_newPosition board.length s.position s.remainingTurnsInJail d hL]
  rw [hnp]
  rw [if_pos (show (0 : Int) < s.position ∧ s.remainingTurnsInJail = 0 ∧ 0 < d from
    ⟨hpos0, hjail, hd⟩)]
  rw [if_neg (by decide : ¬(false = true))]
  simp [handleSpace, hget, spaceAction]
  omega

/-- Witness for C8: a 4-space board with Go at index 0, start at position 2, move 2. -/
theorem land_on_go_nets_400_witness :
    (movePlayer [SpaceTag.go, SpaceTag.other, SpaceTag.other, SpaceTag.other] 2
        ⟨2, 100, 0⟩).money = 100 + 400
    ∧ (movePlayer [SpaceTag.go, SpaceTag.other, SpaceTag.other, SpaceTag.other] 2
        ⟨2, 100, 0⟩).position = 0 :=
  land_on_go_nets_400 [SpaceTag.go, SpaceTag.other, SpaceTag.other, SpaceTag.other]
    ⟨2, 100, 0⟩ 2 (by decide) (by decide) (by decide) (by decide) (by decide)
    (by decide) (by decide) (by decide)

/-- C1 (code bug): with the community chest get-out-of-jail-free token already held
(communityChestGOJFCTaken = true), drawing the community chest deck with that deck's
get-out-of-jail-free card on top still invokes the card's effect instead of
re-drawing.  The guard fails twice over: managers.cc line 181 searches the card text
for "Get Out of Jail Free" while the card data spells "Get out of Jail Free", so the
case-sensitive find never matches (the same mismatch also defeats the chance-deck
guard at line 156, third conjunct), and the guard tests chanceGOJFCTaken instead of
communityChestGOJFCTaken (second conjunct). -/
theorem draw_gojfc_effect_runs_despite_token_taken :
    drawCommunityChestCardStep [communityChestGOJFCCard] true true
      = DrawResult.invoke communityChestGOJFCCard
    ∧ drawCommunityChestCardStep [communityChestGOJFCCard] false true
      = DrawResult.invoke communityChestGOJFCCard
    ∧ drawChanceCardStep [chanceGOJFCCard] true
      = DrawResult.invoke chanceGOJFCCard := by
  refine ⟨?_, ?_, ?_⟩ <;> decide

/-- C5 (code bug): the end-of-turn bankruptcy scan removes players from the list it is
indexing while still incrementing the index, so of two adjacent players that both sit
at exactly 0 money the second is skipped: it stays in the active list (still holding 0
money) and its spaces are not released.  Here players 0 and 1 both have 0 money; after
the scan player 1 is still active and still owns the second space. -/
theorem bankruptcy_scan_skips_adjacent_bankrupt_player :
    bankruptcyScan [⟨0, 0⟩, ⟨1, 0⟩, ⟨2, 100⟩]
        [⟨some 0, true, 3⟩, ⟨some 1, true, 3⟩]
      = ([⟨1, 0⟩, ⟨2, 100⟩], [⟨none, true, 6⟩, ⟨some 1, true, 3⟩])
    ∧ ∃ p ∈ (bankruptcyScan [⟨0, 0⟩, ⟨1, 0⟩, ⟨2, 100⟩]
        [⟨some 0, true, 3⟩, ⟨some 1, true, 3⟩]).1, p.money = 0 := by
  refine ⟨by decide, ?_⟩
  exact ⟨⟨1, 0⟩, by decide, rfl⟩

/-- C4 counterexample: a request on a 3-property group whose resulting levels are
[2, 2, 3] (difference of exactly 1) is NOT rejected: with house price 100 and money
1000 it is committed, debiting one house price, contrary to the claim that it is
retried (managers.cc line 301 rejects only differences strictly greater than 1). -/
theorem build_levels_2_2_3_accepted :
    buildOnPropertiesStep [2, 2, 2] [0, 0, 1] 100 1000
      = BuildOutcome.commit [2, 2, 3] 900
    ∧ buildOnPropertiesStep [2, 2, 2] [0, 0, 1] 100 1000
      ≠ BuildOutcome.retryInconsistent := by
  refine ⟨by decide, by decide⟩

/-- C4 amended: on a 3-property group, resulting levels [2, 2, 3] are accepted and
committed, [2, 2, 4] is rejected for retry, and [2, 3, 3] is accepted and committed,
whenever the player can afford the requested houses (managers.cc lines 300-317). -/
theorem build_group_level_boundary (housePrice money : Int)
    (hp0 : 0 < housePrice) (hm : 2 * housePrice ≤ money) :
    buildOnPropertiesStep [2, 2, 2] [0, 0, 1] housePrice money
      = BuildOutcome.commit [2, 2, 3] (money - housePrice)
    ∧ buildOnPropertiesStep [2, 2, 2] [0, 0, 2] housePrice money
      = BuildOutcome.retryInconsistent
    ∧ buildOnPropertiesStep [2, 2, 2] [0, 1, 1] housePrice money
      = BuildOutcome.commit [2, 3, 3] (money - 2 * housePrice) := by
  have hm0 : (0 : Int) ≤ money := by omega
  have hq : 2 ≤ money.tdiv housePrice := by
    rw [Int.tdiv_eq_ediv hm0 (le_of_lt hp0)]
    exact (Int.le_ediv_iff_mul_le hp0).mpr (by omega)
  have hc0 : getNumberRanged 0 0 (min (5 - 2) (money.tdiv housePrice)) = 0 := by
    unfold getNumberRanged
    rw [if_neg (by omega), if_neg (by omega)]
  have hc1 : getNumberRanged 1 0 (min (5 - 2) (money.tdiv housePrice)) = 1 := by
    unfold getNumberRanged
    rw [if_neg (by omega), if_neg (by omega)]
  have hc2 : getNumberRanged 2 0 (min (5 - 2) (money.tdiv housePrice)) = 2 := by
    unfold getNumberRanged
    rw [if_neg (by omega), if_neg (by omega)]
  refine ⟨?_, ?_, ?_⟩
  · simp only [buildOnPropertiesStep, List.zipWith, hc0, hc1, List.sum_cons,
      List.sum_nil, List.foldl]
    rw [if_neg (by omega), if_neg (by omega)]
    norm_num
  · simp only [buildOnPropertiesStep, List.zipWith, hc0, hc2, List.sum_cons,
      List.sum_nil, List.foldl]
    rw [if_pos (by omega)]
  · simp only [buildOnPropertiesStep, List.zipWith, hc0, hc1, List.sum_cons,
      List.sum_nil, List.foldl]
    rw [if_neg (by omega), if_neg (by omega)]
    norm_num

/-- Witness for the amended C4 at house price 100 and money 1000. -/
theorem build_group_level_boundary_witness :
    buildOnPropertiesStep [2, 2, 2] [0, 0, 1] 100 1000
      = BuildOutcome.commit [2, 2, 3] (1000 - 100)
    ∧ buildOnPropertiesStep [2, 2, 2] [0, 0, 2] 100 1000
      = BuildOutcome.retryInconsistent
    ∧ buildOnPropertiesStep [2, 2, 2] [0, 1, 1] 100 1000
      = BuildOutcome.commit [2, 3, 3] (1000 - 2 * 100) :=
  build_group_level_boundary 100 1000 (by decide) (by decide)

/-- C10: a jailed player who accepts using a get-out-of-jail-free card always consumes
the chance token when it is held (community chest token and its taken flag untouched),
consumes the community chest token only when the chance token is not held, and in
either case ends with 0 remaining turns in jail (spaces.cc lines 514-534). -/
theorem jail_card_chance_consumed_first :
    (∀ (s : JailState) (payFineAnswer : Bool) (d1 d2 : Int),
        0 < s.remainingTurnsInJail → s.hasChanceGOJFC = true →
        s.hasCommunityChestGOJFC = true →
        jailAction s true payFineAnswer d1 d2
          = { s with remainingTurnsInJail := 0, hasChanceGOJFC := false,
                     chanceGOJFCTaken := false })
    ∧ (∀ (s : JailState) (payFineAnswer : Bool) (d1 d2 : Int),
        0 < s.remainingTurnsInJail → s.hasChanceGOJFC = false →
        s.hasCommunityChestGOJFC = true →
        jailAction s true payFineAnswer d1 d2
          = { s with remainingTurnsInJail := 0, hasCommunityChestGOJFC := false,
                     communityChestGOJFCTaken := false }) := by
  constructor
  · intro s payFineAnswer d1 d2 hj hch _hcc
    simp [jailAction, hj, hch]
  · intro s payFineAnswer d1 d2 hj hch hcc
    simp [jailAction, hj, hch, hcc]

/-- Witness for C10: a player in jail for 3 turns holding both tokens, and one holding
only the community chest token. -/
theorem jail_card_chance_consumed_first_witness :
    jailAction ⟨3, 100, true, true, true, true⟩ true false 1 2
      = ⟨0, 100, false, true, false, true⟩
    ∧ jailAction ⟨3, 100, false, true, false, true⟩ true false 1 2
      = ⟨0, 100, false, false, false, false⟩ :=
  ⟨jail_card_chance_consumed_first.1 ⟨3, 100, true, true, true, true⟩ false 1 2
      (by decide) (by decide) (by decide),
   jail_card_chance_consumed_first.2 ⟨3, 100, false, true, false, true⟩ false 1 2
      (by decide) (by decide) (by decide)⟩

/-! ## Auction lemmas -/

lemma auctionLoop_isSome :
    ∀ (fuel : Nat) (q : List Bidder) (bid : Int) (moves : List (Bool × Int)),
      q ≠ [] → moves.length + q.length ≤ fuel + 1 →
      (auctionLoop fuel q bid moves).isSome = true := by
  intro fuel
  induction fuel with
  | zero =>
    intro q bid moves hq hlen
    match q with
    | [] => exact absurd rfl hq
    | [w] => rfl
    | p :: p2 :: rest =>
      exfalso
      simp only [List.length_cons] at hlen
      omega
  | succ n ih =>
    intro q bid moves hq hlen
    match q with
    | [] => exact absurd rfl hq
    | [w] => rfl
    | p :: p2 :: rest =>
      simp only [List.length_cons] at hlen
      by_cases helim : p.money - 1 ≤ bid
      · simp only [auctionLoop, if_pos helim]
        apply ih (p2 :: rest) bid moves (List.cons_ne_nil p2 rest)
        simp only [List.length_cons]
        omega
      · cases moves with
        | nil =>
          simp only [auctionLoop, if_neg helim]
          apply ih (p2 :: rest) bid [] (List.cons_ne_nil p2 rest)
          simp only [List.length_cons, List.length_nil]
          omega
        | cons mv mrest =>
          obtain ⟨wants, amt⟩ := mv
          simp only [List.length_cons] at hlen
          cases wants with
          | true =>
            simp only [auctionLoop, if_neg helim, if_pos rfl]
            apply ih ((p2 :: rest) ++ [p]) _ mrest (by simp)
            simp only [List.length_append, List.length_cons, List.length_nil]
            omega
          | false =>
            simp only [auctionLoop, if_neg helim, Bool.false_eq_true, if_false]
            apply ih (p2 :: rest) bid mrest (List.cons_ne_nil p2 rest)
            simp only [List.length_cons]
            omega

lemma auctionLoop_no_bids :
    ∀ (fuel : Nat) (q : List Bidder) (bid : Int) (moves : List (Bool × Int)) (w : Bidder),
      (∀ m ∈ moves, m.1 = false) → q.getLast? = some w →
      moves.length + q.length ≤ fuel + 1 →
      auctionLoop fuel q bid moves = some (w, bid) := by
  intro fuel
  induction fuel with
  | zero =>
    intro q bid moves w hall hlast hlen
    match q with
    | [] => simp at hlast
    | [w'] =>
      simp only [List.getLast?_singleton, Option.some.injEq] at hlast
      rw [hlast]
      rfl
    | p :: p2 :: rest =>
      exfalso
      simp only [List.length_cons] at hlen
      omega
  | succ n ih =>
    intro q bid moves w hall hlast hlen
    match q with
    | [] => simp at hlast
    | [w'] =>
      simp only [List.getLast?_singleton, Option.some.injEq] at hlast
      rw [hlast]
      rfl
    | p :: p2 :: rest =>
      have hlast' : (p2 :: rest).getLast? = some w := by
        rwa [List.getLast?_cons_cons] at hlast
      simp only [List.length_cons] at hlen
      by_cases helim : p.money - 1 ≤ bid
      · simp only [auctionLoop, if_pos helim]
        apply ih (p2 :: rest) bid moves w hall hlast'
        simp only [List.length_cons]
        omega
      · cases moves with
        | nil =>
          simp only [auctionLoop, if_neg helim]
          apply ih (p2 :: rest) bid [] w (by simp) hlast'
          simp only [List.length_cons, List.length_nil]
          omega
        | cons mv mrest =>
          have hmv : mv.1 = false := hall mv (List.mem_cons_self mv mrest)
          obtain ⟨wants, amt⟩ := mv
          simp only at hmv
          subst hmv
          simp only [List.length_cons] at hlen
          simp only [auctionLoop, if_neg helim, Bool.false_eq_true, if_false]
          apply ih (p2 :: rest) bid mrest w
            (fun m hm => hall m (List.mem_cons_of_mem _ hm)) hlast'
          simp only [List.length_cons]
          omega

/-- C7: the auction protocol always ends with a single winner who pays the final high
bid to the bank and becomes owner of the space; with no bids the last candidate in
rotation wins at bid 0; and in the concrete scenario with money [40, 100, 60] where
only the second candidate ever bids (55), candidate 2 wins at 55 (spaces.cc lines
147-189). -/
theorem auction_protocol :
    (∀ (players : List Bidder) (moves : List (Bool × Int)),
        players ≠ [] → (auctionSettle players moves).isSome = true)
    ∧ (∀ (players : List Bidder) (moves : List (Bool × Int)) (r : AuctionOutcome),
        auctionSettle players moves = some r →
        r.newOwner = some r.winnerId
        ∧ r.winnerMoneyAfter = debitWithBankRescue r.winnerMoneyBefore r.finalBid)
    ∧ (∀ (players : List Bidder) (moves : List (Bool × Int)) (w : Bidder),
        (∀ m ∈ moves, m.1 = false) → players.getLast? = some w →
        auction players moves = some (w, 0))
    ∧ auctionSettle [⟨1, 40⟩, ⟨2, 100⟩, ⟨3, 60⟩] [(false, 0), (true, 55), (false, 0)]
        = some { winnerId := 2, winnerMoneyBefore := 100, finalBid := 55,
                 winnerMoneyAfter := 45, newOwner := some 2 } := by
  refine ⟨?_, ?_, ?_, by decide⟩
  · intro players moves hne
    unfold auctionSettle
    have h := auctionLoop_isSome (moves.length + players.length) players 0 moves hne
      (by omega)
    cases hr : auctionLoop (moves.length + players.length) players 0 moves with
    | none => rw [hr] at h; simp at h
    | some wb => unfold auction; rw [hr]; rfl
  · intro players moves r hr
    unfold auctionSettle at hr
    obtain ⟨wb, _hwb, hfr⟩ := Option.map_eq_some'.mp hr
    rw [← hfr]
    exact ⟨rfl, rfl⟩
  · intro players moves w hall hlast
    exact auctionLoop_no_bids (moves.length + players.length) players 0 moves w hall
      hlast (by omega)

/-- Outcome of the concrete 3-candidate demonstration auction. -/
def auctionDemoOutcome : AuctionOutcome :=
  { winnerId := 2, winnerMoneyBefore := 100, finalBid := 55,
    winnerMoneyAfter := 45, newOwner := some 2 }

/-- Witness for C7: the universally quantified parts applied at concrete inputs (a
singleton auction, the demonstration auction's settled outcome, and a 2-candidate
auction where nobody bids). -/
theorem auction_protocol_witness :
    (auctionSettle [⟨1, 40⟩] []).isSome = true
    ∧ (auctionDemoOutcome.newOwner = some auctionDemoOutcome.winnerId
        ∧ auctionDemoOutcome.winnerMoneyAfter
          = debitWithBankRescue auctionDemoOutcome.winnerMoneyBefore
              auctionDemoOutcome.finalBid)
    ∧ auction [⟨1, 40⟩, ⟨2, 100⟩] [(false, 0), (false, 0)] = some (⟨2, 100⟩, 0) :=
  ⟨auction_protocol.1 [⟨1, 40⟩] [] (by decide),
   auction_protocol.2.1 [⟨1, 40⟩, ⟨2, 100⟩, ⟨3, 60⟩]
     [(false, 0), (true, 55), (false, 0)] auctionDemoOutcome (by decide),
   auction_protocol.2.2.1 [⟨1, 40⟩, ⟨2, 100⟩] [(false, 0), (false, 0)] ⟨2, 100⟩
     (by decide) (by decide)⟩

/-- Witness for C9 at the concrete name Alice. -/
theorem player_ctor_defaults_witness :
    (mkPlayer "Alice").money = 1500
    ∧ (mkPlayer "Alice").position = 0
    ∧ (mkPlayer "Alice").nbStationsOwned = 0
    ∧ (mkPlayer "Alice").nbUtilitiesOwned = 0
    ∧ (mkPlayer "Alice").remainingTurnsInJail = 0
    ∧ (mkPlayer "Alice").hasChanceGOJFC = false
    ∧ (mkPlayer "Alice").hasCommunityChestGOJFC = false :=
  player_ctor_defaults "Alice"

end MonopolyModel
